import Mathlib

/-!
Elevator simulator — formal model of `src/main.js`.

This file embeds the motion-and-door state machine of the elevator
simulator (`main.js`) in Lean and proves/refutes the specification's
claims about it.

Embedding strategy: JavaScript's single-threaded event loop is modelled
explicitly.  Every synchronous run of code (a click handler together
with all statements it executes up to the next `await sleep(...)`, or
the resumption of an `async` function after a `sleep` resolves) is an
atomic Lean function on the system state.  Each `await sleep(ms)` inside
`goToFloor` / `openDoors` / `closeDoors` becomes a scheduled `ETask`
carrying the suspended continuation, with an absolute wake time; the
auto-close dwell `setTimeout` is the `doorTimer` field.  A step of the
system (`exec`) either delivers a user event at some time not later than
every pending wake, or fires a pending wake of minimal time.

Configuration constants are the concrete values of the repository
(`SPEED_PER_FLOOR = 900` in `main.js`; `--floors: 6` and
`--door-time: 700ms` from the CSS custom properties documented in the
README; `doorAutoCloseMs = 5000` in `main.js`).
-/

/-- Modelled from the spec: `main.js` reads the floor count from the
`--floors` CSS custom property of `style.css`, which is not among the
sources; the README documents its default as 6. -/
def floors : Int := 6

/-- `SPEED_PER_FLOOR` constant of `main.js` (ms per floor). -/
def SPEED_PER_FLOOR : Nat := 900

/-- Modelled from the spec: `main.js` reads the door open/close settle
duration (the `await sleep(...)` length) from the `--door-time` CSS
custom property of `style.css`, which is not among the sources; the
README documents its default as 700ms. -/
def doorTime : Nat := 700

/-- `doorAutoCloseMs` of `main.js`: dwell before auto-closing. -/
def doorAutoCloseMs : Nat := 5000

/-- The mutable `state` object of `main.js`.  `doors` is a string with
values `"open"` / `"closed"`, exactly as in the source. -/
structure CarState where
  current : Int
  direction : Int
  moving : Bool
  doors : String
  selected : Int
deriving DecidableEq, Repr

/-- A suspended continuation sitting in the event loop's timer queue.

* `closeSettle k` — `closeDoors` is inside `await sleep(doorTime)` after
  flipping `state.doors = "closed"`; `k = some target` when the call was
  `await`-ed from `goToFloor(target)` (whose remainder resumes when the
  sleep resolves), `k = none` for a fire-and-forget call (Close button,
  auto-close timer callback).
* `openSettle` — `openDoors` is inside `await sleep(doorTime)` after
  flipping `state.doors = "open"`; on wake it runs
  `startDoorAutoCloseTimer()`.  (Nothing ever awaits code *after* an
  `openDoors()` call, so no continuation data is needed.)
* `tick stepd remaining temp` — the travel loop of `goToFloor` is inside
  `await sleep(SPEED_PER_FLOOR)`; `stepd` is the loop's `step` constant
  (read from `state.direction` when the loop started), `temp` its local
  accumulator, `remaining` the number of loop iterations still to run
  (including the one this wake performs). -/
inductive ETask where
  | closeSettle (k : Option Int)
  | openSettle
  | tick (stepd : Int) (remaining : Nat) (temp : Int)
deriving DecidableEq, Repr

/-- Whole-system state: the `state` object, the `doorTimer` slot
(absolute fire time of the pending auto-close `setTimeout`, if armed —
a fired-but-dead handle is modelled as `none` since no code branches on
a dead handle), the queue of pending sleeps, and the current wall time. -/
structure Sys where
  st : CarState
  doorTimer : Option Nat
  tasks : List (Nat × ETask)
  now : Nat
deriving DecidableEq, Repr

/-- `clearDoorTimer()` of `main.js`. -/
def clearDoorTimer (s : Sys) : Sys := { s with doorTimer := none }

/-- `startDoorAutoCloseTimer()` of `main.js`: clears the old timer and
arms a fresh `setTimeout(..., doorAutoCloseMs)`. -/
def startDoorAutoCloseTimer (s : Sys) : Sys :=
  { s with doorTimer := some (s.now + doorAutoCloseMs) }

/-- Synchronous part of `openDoors()` (`main.js`).  Already open: the
dwell timer is restarted and the function returns.  Otherwise the doors
flip to `"open"` immediately and the visual-settle sleep is scheduled
(the auto-close timer is armed only when that sleep resolves). -/
def openDoors (s : Sys) : Sys :=
  if s.st.doors = "open" then
    startDoorAutoCloseTimer s
  else
    let s1 : Sys := { s with st := { s.st with doors := "open" } }
    { s1 with tasks := s1.tasks ++ [(s1.now + doorTime, ETask.openSettle)] }

/-- Continuation of `goToFloor(target)` after `await closeDoors()`
resolves: recompute `steps`; at zero steps clear the direction and run
the door-open routine, otherwise set `moving`, read `step` from
`state.direction` and `temp` from `state.current`, and schedule the
first travel tick. -/
def goToFloorResume (target : Int) (s : Sys) : Sys :=
  let steps : Nat := (target - s.st.current).natAbs
  if steps = 0 then
    openDoors { s with st := { s.st with direction := 0 } }
  else
    let s1 : Sys := { s with st := { s.st with moving := true } }
    { s1 with tasks := s1.tasks ++
        [(s1.now + SPEED_PER_FLOOR, ETask.tick s1.st.direction steps s1.st.current)] }

/-- Synchronous part of `closeDoors()` (`main.js`): unconditionally
clears the auto-close timer; if the doors are already closed it returns
at once (so an awaiting `goToFloor` resumes in the same microtask,
i.e. inline here); otherwise it flips the doors to `"closed"` and
schedules the visual-settle sleep, deferring the awaiting `goToFloor`
continuation `k` to that wake. -/
def closeDoors (k : Option Int) (s : Sys) : Sys :=
  let s0 := clearDoorTimer s
  if s0.st.doors = "closed" then
    match k with
    | none => s0
    | some target => goToFloorResume target s0
  else
    let s1 : Sys := { s0 with st := { s0.st with doors := "closed" } }
    { s1 with tasks := s1.tasks ++ [(s1.now + doorTime, ETask.closeSettle k)] }

/-- Synchronous part of `goToFloor(target)` (`main.js`): instant
`selected` highlight; early return when moving or already at the target;
otherwise set the direction and run `closeDoors()` (resuming inline when
the doors were already closed). -/
def goToFloor (target : Int) (s : Sys) : Sys :=
  let s0 : Sys := { s with st := { s.st with selected := target } }
  if s0.st.moving ∨ target = s0.st.current then s0
  else
    let dir : Int := if target > s0.st.current then 1 else -1
    closeDoors (some target) { s0 with st := { s0.st with direction := dir } }

/-- The auto-close timer's callback (`main.js`):
`if (!state.moving) closeDoors();`. -/
def doorTimerCallback (s : Sys) : Sys :=
  if s.st.moving then s else closeDoors none s

/-- Resume the continuation `tk` when its sleep resolves. -/
def runTask (tk : ETask) (s : Sys) : Sys :=
  match tk with
  | ETask.closeSettle none => s
  | ETask.closeSettle (some target) => goToFloorResume target s
  | ETask.openSettle => startDoorAutoCloseTimer s
  | ETask.tick stepd remaining temp =>
      let temp2 := temp + stepd
      let s1 : Sys := { s with st := { s.st with current := temp2 } }
      if remaining = 1 then
        let s2 : Sys := { s1 with st :=
          { s1.st with moving := false, direction := 0, selected := temp2 } }
        openDoors s2
      else
        { s1 with tasks := s1.tasks ++
            [(s1.now + SPEED_PER_FLOOR, ETask.tick stepd (remaining - 1) temp2)] }

/-- All pending wake times: the sleeps plus the dwell timer. -/
def Sys.wakes (s : Sys) : List Nat :=
  s.tasks.map Prod.fst ++ (match s.doorTimer with | some T => [T] | none => [])

/-- A user event may be delivered at time `t` if `t` is not earlier than
the current time and not later than any pending wake. -/
def userOkAt (s : Sys) (t : Nat) : Bool :=
  decide (s.now ≤ t) && s.wakes.all (fun w => decide (t ≤ w))

/-- One event of the event loop: a click on a floor button / Open / Close
at wall time `t`, the firing of the `i`-th pending sleep, or the firing
of the auto-close timer. -/
inductive Act where
  | press (f : Int) (t : Nat)
  | pressOpen (t : Nat)
  | pressClose (t : Nat)
  | fire (i : Nat)
  | timerFire
deriving DecidableEq, Repr

/-- Execute one event.  Click guards mirror the `disabled` attributes
computed by `refreshButtons()` (`main.js`): Open is disabled while
moving or already open, Close while moving or already closed, floor
buttons while moving (only buttons `0 ≤ f < floors` exist).  The
current-floor gating of a floor button is left to `goToFloor`'s own
check, since during travel `state.current` changes without a
`refreshButtons()` call and the rendered `disabled` state can be stale.
A sleep or the timer may only fire when no pending wake is earlier. -/
def exec (s : Sys) (a : Act) : Option Sys :=
  match a with
  | Act.press f t =>
      if userOkAt s t && decide (0 ≤ f) && decide (f < floors) && !s.st.moving then
        some (goToFloor f { s with now := t })
      else none
  | Act.pressOpen t =>
      if userOkAt s t && !s.st.moving && !(s.st.doors == "open") then
        some (openDoors { s with now := t })
      else none
  | Act.pressClose t =>
      if userOkAt s t && !s.st.moving && !(s.st.doors == "closed") then
        some (closeDoors none { s with now := t })
      else none
  | Act.fire i =>
      match s.tasks[i]? with
      | some (w, tk) =>
          if s.wakes.all (fun v => decide (w ≤ v)) then
            some (runTask tk { s with now := w, tasks := s.tasks.eraseIdx i })
          else none
      | none => none
  | Act.timerFire =>
      match s.doorTimer with
      | some T =>
          if (s.tasks.map Prod.fst).all (fun v => decide (T ≤ v)) then
            some (doorTimerCallback { s with now := T, doorTimer := none })
          else none
      | none => none

/-- The state right after the script of `main.js` has run: the `state`
literal (floor 0, doors `"closed"`), then `init()` calls `openDoors()`. -/
def initSys : Sys :=
  openDoors
    { st := { current := 0, direction := 0, moving := false,
              doors := "closed", selected := 0 },
      doorTimer := none, tasks := [], now := 0 }

/-- Reachability under arbitrary event-loop interleavings. -/
inductive Reachable : Sys → Prop where
  | init : Reachable initSys
  | step {s s' : Sys} {a : Act} : Reachable s → exec s a = some s' → Reachable s'

/-- Whether an action is a user click (as opposed to a timer firing). -/
def Act.isUser : Act → Bool
  | Act.press _ _ => true
  | Act.pressOpen _ => true
  | Act.pressClose _ => true
  | Act.fire _ => false
  | Act.timerFire => false

/-- Reachability when users only click in quiescent moments: no sleep
continuation pending (the dwell timer may be pending).  This is the
"no interleaving mid-sequence" usage the specification describes. -/
inductive ReachableQ : Sys → Prop where
  | init : ReachableQ initSys
  | step {s s' : Sys} {a : Act} : ReachableQ s → (a.isUser = true → s.tasks = []) →
      exec s a = some s' → ReachableQ s'

/-- Run a list of events in order. -/
def execList (s : Sys) : List Act → Option Sys
  | [] => some s
  | a :: r =>
      match exec s a with
      | some s' => execList s' r
      | none => none

/-- Fire the head task `k` times in a row. -/
def fires : Nat → Sys → Option Sys
  | 0, s => some s
  | k + 1, s =>
      match exec s (Act.fire 0) with
      | some s' => fires k s'
      | none => none

/-- A pending task that belongs to a travel sequence: either the
suspended `goToFloor` continuation waiting for its door close, or a
floor tick of the travel loop. -/
def ETask.isTravel : ETask → Bool
  | ETask.closeSettle (some _) => true
  | ETask.closeSettle none => false
  | ETask.openSettle => false
  | ETask.tick _ _ _ => true

/-- Number of travel sequences currently in flight (suspended at one of
their sleeps). -/
def inFlight (s : Sys) : Nat :=
  (s.tasks.filter (fun p => p.2.isTravel)).length

/-- No suspended travel-sequence continuation is pending. -/
def TravelFree (s : Sys) : Prop :=
  ∀ p ∈ s.tasks, p.2.isTravel = false

/-- Inductive invariant of quiescent-usage executions (`ReachableQ`):
at most one sleep is pending; a pending door-close settle or travel
resume implies the doors are (logically) closed; an armed dwell timer
implies the doors are open and nothing else is pending; a pending
door-open settle implies the doors are open; a moving car has its doors
closed and a tick pending. -/
def InvQ (s : Sys) : Prop :=
  s.tasks.length ≤ 1 ∧
  (∀ p ∈ s.tasks, ∀ k, p.2 = ETask.closeSettle k → s.st.doors = "closed") ∧
  (∀ T, s.doorTimer = some T → s.st.doors = "open" ∧ s.tasks = []) ∧
  (∀ p ∈ s.tasks, p.2 = ETask.openSettle → s.st.doors = "open") ∧
  (s.st.moving = true → s.st.doors = "closed") ∧
  (s.st.moving = true → ∃ p ∈ s.tasks, ∃ d r temp, p.2 = ETask.tick d r temp)

/-- Canonical mid-travel configuration: the car sits at `c` with the
doors closed, moving with commanded direction `d` toward a destination
`r` ticks away, the next tick due `SPEED_PER_FLOOR` after `n`. -/
def travelCfg (c d : Int) (r : Nat) (sel : Int) (n : Nat) : Sys :=
  { st := { current := c, direction := d, moving := true,
            doors := "closed", selected := sel },
    doorTimer := none,
    tasks := [(n + SPEED_PER_FLOOR, ETask.tick d r c)], now := n }

/-- Configuration of a travel toward `g` suspended in its door-close
settle (doors already logically closed, `moving` still false). -/
def closingCfg (c d g : Int) (n : Nat) : Sys :=
  { st := { current := c, direction := d, moving := false,
            doors := "closed", selected := g },
    doorTimer := none,
    tasks := [(n + doorTime, ETask.closeSettle (some g))], now := n }

/-- Configuration right after the arrival tail of `goToFloor` ran at
time `n`: idle at floor `c`, doors open with the visual settle pending. -/
def arrivedCfg (c : Int) (n : Nat) : Sys :=
  { st := { current := c, direction := 0, moving := false,
            doors := "open", selected := c },
    doorTimer := none, tasks := [(n + doorTime, ETask.openSettle)], now := n }

/-- Quiescent reachable state with the doors closed: obtained from
`initSys` by letting the open settle, the dwell timer and the close
settle all fire with no user action. -/
def qClosedState : Sys :=
  { st := { current := 0, direction := 0, moving := false,
            doors := "closed", selected := 0 },
    doorTimer := none, tasks := [], now := 6400 }

/-- Mid-travel reachable state: floor 3 requested from `qClosedState`
at time 7000 (doors already closed, so the travel starts at once). -/
def travelingState : Sys :=
  { st := { current := 0, direction := 1, moving := true,
            doors := "closed", selected := 3 },
    doorTimer := none, tasks := [(7900, ETask.tick 1 3 0)], now := 7000 }

/-- State during the door-closing suspension of a travel toward floor 3
(floor 3 pressed at time 1000 while the doors were open): the direction
is already commanded but `moving` is still false. -/
def closingPhaseState : Sys :=
  { st := { current := 0, direction := 1, moving := false,
            doors := "closed", selected := 3 },
    doorTimer := none, tasks := [(1700, ETask.closeSettle (some 3))], now := 1000 }

/-- State with two travel sequences in flight: floor 5 pressed at time
1100, during the door-closing suspension of the travel toward floor 3. -/
def twoTravelState : Sys :=
  { st := { current := 0, direction := 1, moving := true,
            doors := "closed", selected := 5 },
    doorTimer := none,
    tasks := [(1700, ETask.closeSettle (some 3)), (2000, ETask.tick 1 5 0)],
    now := 1100 }

/-- Quiescent reachable state with the doors open and the dwell timer
armed: `initSys` after its open settle fired at 700. -/
def dwellState : Sys :=
  { st := { current := 0, direction := 0, moving := false,
            doors := "open", selected := 0 },
    doorTimer := some 5700, tasks := [], now := 700 }

/-- State traveling with the doors open: the Open button was pressed at
time 1100, during the door-closing suspension of the travel toward
floor 3, and then the suspended travel resumed and started moving. -/
def movingDoorsOpenState : Sys :=
  { st := { current := 0, direction := 1, moving := true,
            doors := "open", selected := 3 },
    doorTimer := none,
    tasks := [(1800, ETask.openSettle), (2600, ETask.tick 1 3 0)],
    now := 1700 }

theorem reachable_execList {s s' : Sys} {l : List Act} (hs : Reachable s)
    (h : execList s l = some s') : Reachable s' := by
  induction l generalizing s with
  | nil => simp [execList] at h; exact h ▸ hs
  | cons a r ih =>
      simp only [execList] at h
      cases he : exec s a with
      | none => rw [he] at h; exact absurd h (by simp)
      | some s1 => rw [he] at h; exact ih (Reachable.step hs he) h

theorem qClosedState_reachable : Reachable qClosedState :=
  reachable_execList Reachable.init
    (show execList initSys [Act.fire 0, Act.timerFire, Act.fire 0] = some qClosedState by decide)

/-- C10: the door routines are pure door operations — for every starting
state, the synchronous parts of `openDoors()` and `closeDoors()` (and
their settle continuations) leave `current`, `selected`, `moving` and
`direction` unchanged; they only touch `doors` and the auto-close
timer/queue. -/
theorem c10_door_routines_frame (s : Sys) :
    ((openDoors s).st.current = s.st.current ∧ (openDoors s).st.selected = s.st.selected ∧
      (openDoors s).st.moving = s.st.moving ∧ (openDoors s).st.direction = s.st.direction) ∧
    ((closeDoors none s).st.current = s.st.current ∧
      (closeDoors none s).st.selected = s.st.selected ∧
      (closeDoors none s).st.moving = s.st.moving ∧
      (closeDoors none s).st.direction = s.st.direction) ∧
    (runTask ETask.openSettle s).st = s.st ∧ (runTask (ETask.closeSettle none) s).st = s.st := by
  simp only [openDoors, closeDoors, runTask, clearDoorTimer, startDoorAutoCloseTimer]
  split_ifs <;> simp_all

/-- C8: `closeDoors()` cancels any pending auto-close timer
unconditionally, and when the doors are already closed it mutates
nothing beyond that cancellation. -/
theorem c8_closeDoors_idempotent (s : Sys) :
    (closeDoors none s).doorTimer = none ∧
    (s.st.doors = "closed" → closeDoors none s = { s with doorTimer := none }) := by
  simp only [closeDoors, clearDoorTimer]
  split_ifs with h <;> simp_all

theorem c8_closeDoors_idempotent_witness :
    closeDoors none qClosedState = { qClosedState with doorTimer := none } :=
  (c8_closeDoors_idempotent qClosedState).2 (by decide)

/-- C4: `requestFloor` always sets `selected` synchronously, and while
the car is moving it does nothing else: `currentFloor`, `direction`,
the door state, the timer and the task queue are all untouched and no
second travel sequence is scheduled. -/
theorem c4_request_while_traveling (s : Sys) (f : Int) :
    (goToFloor f s).st.selected = f ∧
    (s.st.moving = true → goToFloor f s = { s with st := { s.st with selected := f } }) := by
  constructor
  · simp only [goToFloor, closeDoors, goToFloorResume, openDoors, clearDoorTimer,
      startDoorAutoCloseTimer]
    split_ifs <;> simp_all
  · intro hm
    simp only [goToFloor]
    simp [hm]

theorem c4_request_while_traveling_witness :
    goToFloor 5 travelingState =
      { travelingState with st := { travelingState.st with selected := 5 } } :=
  (c4_request_while_traveling travelingState 5).2 (by decide)

/-- C3 (amended): `requestFloor(target)` with `target == currentFloor`
while idle returns immediately after the synchronous `selected` update:
doors, direction, timer and queue are untouched and no door-open runs. -/
theorem c3_same_floor_request_noop (s : Sys) (g : Int)
    (_hm : s.st.moving = false) (hg : g = s.st.current) :
    goToFloor g s = { s with st := { s.st with selected := g } } := by
  simp only [goToFloor]
  simp [hg]

theorem c3_same_floor_request_noop_witness :
    goToFloor 0 qClosedState =
      { qClosedState with st := { qClosedState.st with selected := 0 } } :=
  c3_same_floor_request_noop qClosedState 0 (by decide) (by decide)

/-- C3 counterexample: in the reachable idle state with the doors
closed, `requestFloor(currentFloor)` leaves the state exactly as it was
(the doors stay closed, nothing is scheduled): the "arrival tail"
(direction reset and door-open routine) does not run. -/
theorem c3_counterexample :
    Reachable qClosedState ∧ qClosedState.st.doors = "closed" ∧
    qClosedState.st.moving = false ∧ goToFloor 0 qClosedState = qClosedState :=
  ⟨qClosedState_reachable, by decide, by decide, by decide⟩

/-- C9: with the doors open, the dwell timer armed for time `T` and no
other action pending, the timer's expiry closes the doors; and any call
of `closeDoors()` leaves the timer cancelled, after which no timer can
fire at all. -/
theorem c9_autoclose_and_cancel (s : Sys) (T : Nat)
    (h1 : s.doorTimer = some T) (h2 : s.st.moving = false)
    (h3 : s.st.doors = "open") (h4 : s.tasks = []) :
    exec s Act.timerFire =
      some { st := { s.st with doors := "closed" }, doorTimer := none,
             tasks := [(T + doorTime, ETask.closeSettle none)], now := T } ∧
    ∀ (s' : Sys) (k : Option Int), (closeDoors k s').doorTimer = none ∧
      exec (closeDoors k s') Act.timerFire = none := by
  constructor
  · simp only [exec]
    rw [h1]
    simp [h4, doorTimerCallback, h2, closeDoors, clearDoorTimer, h3]
  · intro s' k
    have ht : (closeDoors k s').doorTimer = none := by
      cases k <;>
        simp only [closeDoors, clearDoorTimer, goToFloorResume, openDoors,
          startDoorAutoCloseTimer] <;>
        split_ifs <;> simp_all
    refine ⟨ht, ?_⟩
    simp only [exec]
    rw [ht]

theorem c9_autoclose_and_cancel_witness :
    exec dwellState Act.timerFire =
      some { st := { dwellState.st with doors := "closed" }, doorTimer := none,
             tasks := [(5700 + doorTime, ETask.closeSettle none)], now := 5700 } :=
  (c9_autoclose_and_cancel dwellState 5700 rfl rfl rfl rfl).1

theorem fires_add (a b : Nat) (s : Sys) :
    fires (a + b) s = (fires a s).bind (fires b) := by
  induction a generalizing s with
  | zero => simp [fires]
  | succ a ih =>
      have h : a + 1 + b = (a + b) + 1 := by omega
      rw [h]
      simp only [fires]
      cases exec s (Act.fire 0) with
      | none => simp
      | some s' => simp [ih s']

theorem exec_fire_travelCfg_step (c d : Int) (r : Nat) (sel : Int) (n : Nat) (hr : 2 ≤ r) :
    exec (travelCfg c d r sel n) (Act.fire 0) =
      some (travelCfg (c + d) d (r - 1) sel (n + SPEED_PER_FLOOR)) := by
  have hr1 : ¬ r = 1 := by omega
  simp [exec, travelCfg, Sys.wakes, runTask, hr1]

theorem exec_fire_travelCfg_last (c d : Int) (sel : Int) (n : Nat) :
    exec (travelCfg c d 1 sel n) (Act.fire 0) =
      some (arrivedCfg (c + d) (n + SPEED_PER_FLOOR)) := by
  simp [exec, travelCfg, arrivedCfg, Sys.wakes, runTask, openDoors]

theorem fires_travelCfg (k : Nat) : ∀ (c d : Int) (r : Nat) (sel : Int) (n : Nat), k < r →
    fires k (travelCfg c d r sel n) =
      some (travelCfg (c + k * d) d (r - k) sel (n + k * SPEED_PER_FLOOR)) := by
  induction k with
  | zero => intro c d r sel n _; simp [fires]
  | succ k ih =>
      intro c d r sel n hk
      rw [fires_add k 1]
      rw [ih c d r sel n (by omega)]
      simp only [Option.some_bind]
      have h2 : fires 1 (travelCfg (c + k * d) d (r - k) sel (n + k * SPEED_PER_FLOOR)) =
          some (travelCfg (c + k * d + d) d (r - k - 1) sel
            (n + k * SPEED_PER_FLOOR + SPEED_PER_FLOOR)) := by
        simp only [fires]
        rw [exec_fire_travelCfg_step _ _ _ _ _ (by omega)]
      rw [h2]
      have e1 : c + (k : Int) * d + d = c + ((k : Nat) + 1 : Nat) * d := by push_cast; ring
      have e2 : r - k - 1 = r - (k + 1) := by omega
      have e3 : n + k * SPEED_PER_FLOOR + SPEED_PER_FLOOR = n + (k + 1) * SPEED_PER_FLOOR := by
        ring
      rw [e1, e2, e3]

theorem fires_travelCfg_complete (c d : Int) (r : Nat) (sel : Int) (n : Nat) (hr : 1 ≤ r) :
    fires r (travelCfg c d r sel n) =
      some (arrivedCfg (c + r * d) (n + r * SPEED_PER_FLOOR)) := by
  obtain ⟨m, rfl⟩ : ∃ m, r = m + 1 := ⟨r - 1, by omega⟩
  rw [fires_add m 1]
  rw [fires_travelCfg m c d (m + 1) sel n (by omega)]
  simp only [Option.some_bind]
  have hm1 : m + 1 - m = 1 := by omega
  rw [hm1]
  simp only [fires]
  rw [exec_fire_travelCfg_last]
  have e1 : c + m * d + d = c + (m + 1) * d := by ring
  have e2 : n + m * SPEED_PER_FLOOR + SPEED_PER_FLOOR = n + (m + 1) * SPEED_PER_FLOOR := by ring
  rw [e1, e2]
  simp [fires]

theorem steps_dir_eq (c g : Int) :
    c + ((g - c).natAbs : Int) * (if g > c then 1 else -1) = g := by
  split_ifs with h <;> omega

theorem goToFloor_closed_starts_travel (s : Sys) (g : Int)
    (hq : s.tasks = []) (hm : s.st.moving = false)
    (hd : s.st.doors = "closed") (hne : g ≠ s.st.current) :
    goToFloor g s = travelCfg s.st.current (if g > s.st.current then 1 else -1)
      (g - s.st.current).natAbs g s.now := by
  have hns : ¬ (g - s.st.current).natAbs = 0 := by
    simpa [sub_eq_zero] using hne
  simp only [goToFloor, closeDoors, clearDoorTimer, goToFloorResume, travelCfg]
  simp [hm, hne, hd, hns, hq]

theorem goToFloor_open_closes_doors (s : Sys) (g : Int)
    (hq : s.tasks = []) (hm : s.st.moving = false)
    (hd : ¬ s.st.doors = "closed") (hne : g ≠ s.st.current) :
    goToFloor g s =
      closingCfg s.st.current (if g > s.st.current then 1 else -1) g s.now := by
  simp only [goToFloor, closeDoors, clearDoorTimer, closingCfg]
  simp [hm, hne, hd, hq]

theorem exec_fire_closingCfg (c d g : Int) (n : Nat) (hne : g ≠ c) :
    exec (closingCfg c d g n) (Act.fire 0) =
      some (travelCfg c d (g - c).natAbs g (n + doorTime)) := by
  have hns : ¬ (g - c).natAbs = 0 := by
    simpa [sub_eq_zero] using hne
  simp [exec, closingCfg, Sys.wakes, runTask, goToFloorResume, travelCfg, hns]

/-- C1: a travel of `steps = |target - current| > 0` floors started by
pressing `target` first runs its door phase (zero extra wakes when the
doors were already closed, one when they had to close, finishing
`doorTime` later), reaching the canonical traveling configuration; then
exactly `steps` tick wakes fire, the `k`-th at `t1 + k * SPEED_PER_FLOOR`,
each advancing `current` by exactly one unit in the commanded direction;
after the final tick `current = target`, `moving = false`,
`direction = 0`, `selected = current`, and the door-open routine has run
(doors `"open"`, settle pending). -/
theorem c1_travel_sequence (s s1 : Sys) (g : Int) (t : Nat) (c d : Int) (steps t1 k0 : Nat)
    (hq : s.tasks = []) (hne : g ≠ s.st.current)
    (hc : c = s.st.current) (hd : d = (if g > c then 1 else -1))
    (hsteps : steps = (g - c).natAbs)
    (ht1 : t1 = (if s.st.doors = "closed" then t else t + doorTime))
    (hk0 : k0 = (if s.st.doors = "closed" then 0 else 1))
    (hpress : exec s (Act.press g t) = some s1) :
    0 < steps ∧ (c + (steps : Int) * d = g) ∧
    fires k0 s1 = some (travelCfg c d steps g t1) ∧
    (∀ k, k < steps → fires k (travelCfg c d steps g t1) =
      some (travelCfg (c + (k : Int) * d) d (steps - k) g (t1 + k * SPEED_PER_FLOOR))) ∧
    fires steps (travelCfg c d steps g t1) =
      some (arrivedCfg g (t1 + steps * SPEED_PER_FLOOR)) := by
  simp only [exec] at hpress
  split_ifs at hpress with hcond
  · simp only [Option.some_inj] at hpress
    have hm : s.st.moving = false := by
      simp only [Bool.and_eq_true, Bool.not_eq_true'] at hcond
      exact hcond.2
    subst hc hd hsteps ht1 hk0 hpress
    have hpos : 0 < (g - s.st.current).natAbs := Int.natAbs_pos.mpr (sub_ne_zero_of_ne hne)
    refine ⟨hpos, steps_dir_eq s.st.current g, ?_, ?_, ?_⟩
    · by_cases hdoor : s.st.doors = "closed"
      · simp only [hdoor, if_true]
        have h1 := goToFloor_closed_starts_travel { s with now := t } g hq hm hdoor hne
        simp only [fires]
        rw [h1]
      · simp only [hdoor, if_false]
        have h1 := goToFloor_open_closes_doors { s with now := t } g hq hm hdoor hne
        simp only [fires]
        rw [h1, exec_fire_closingCfg s.st.current _ g t hne]
    · intro k hk
      split_ifs <;> exact fires_travelCfg k s.st.current _ _ g _ hk
    · have hc1 := fires_travelCfg_complete s.st.current
        (if g > s.st.current then 1 else -1) (g - s.st.current).natAbs g
        (if s.st.doors = "closed" then t else t + doorTime) hpos
      rw [hc1, steps_dir_eq s.st.current g]

theorem c1_travel_sequence_witness :
    0 < 3 ∧ ((0 : Int) + ((3 : Nat) : Int) * 1 = 3) ∧
    fires 0 travelingState = some (travelCfg 0 1 3 3 7000) ∧
    (∀ k, k < 3 → fires k (travelCfg 0 1 3 3 7000) =
      some (travelCfg (0 + (k : Int) * 1) 1 (3 - k) 3 (7000 + k * SPEED_PER_FLOOR))) ∧
    fires 3 (travelCfg 0 1 3 3 7000) = some (arrivedCfg 3 (7000 + 3 * SPEED_PER_FLOOR)) :=
  c1_travel_sequence qClosedState travelingState 3 7000 0 1 3 7000 0
    (by decide) (by decide) (by decide) (by decide) (by decide) (by decide) (by decide)
    (by decide)

/-- C5 (amended): `goToFloor` performs no range validation — from an
idle quiescent state with the doors closed, a request for any
`g ≠ current`, in range or not, starts a travel sequence exactly as for
a valid floor, and after its `|g - current|` ticks `current = g` (so an
out-of-range request drives `current` out of `[0, floors)`); only the
UI's button set, which exists solely for floors `0 ≤ f < floors`,
restricts requests to valid targets. -/
theorem c5_no_validation (s : Sys) (g : Int)
    (hq : s.tasks = []) (hm : s.st.moving = false)
    (hd : s.st.doors = "closed") (hne : g ≠ s.st.current) :
    goToFloor g s = travelCfg s.st.current (if g > s.st.current then 1 else -1)
      (g - s.st.current).natAbs g s.now ∧
    (fires (g - s.st.current).natAbs (goToFloor g s)).map (fun x => x.st.current) =
      some g := by
  have h1 := goToFloor_closed_starts_travel s g hq hm hd hne
  have hpos : 0 < (g - s.st.current).natAbs := Int.natAbs_pos.mpr (sub_ne_zero_of_ne hne)
  refine ⟨h1, ?_⟩
  rw [h1, fires_travelCfg_complete _ _ _ _ _ hpos]
  simp only [Option.map_some, arrivedCfg]
  rw [steps_dir_eq s.st.current g]
  simp

theorem c5_no_validation_witness :
    goToFloor (-1) qClosedState = travelCfg 0 (-1) 1 (-1) 6400 ∧
    (fires 1 (goToFloor (-1) qClosedState)).map (fun x => x.st.current) = some (-1) :=
  c5_no_validation qClosedState (-1) (by decide) (by decide) (by decide) (by decide)

/-- C5 counterexample: calling `requestFloor(-1)` (a target outside
`[0, floors)`) from the reachable idle state `qClosedState` is *not*
rejected: a travel sequence begins (`moving` becomes true) and one tick
later `current = -1`, outside `[0, floors)`. -/
theorem c5_counterexample :
    Reachable qClosedState ∧
    (goToFloor (-1) qClosedState).st.moving = true ∧
    (fires 1 (goToFloor (-1) qClosedState)).map (fun x => x.st.current) = some (-1) :=
  ⟨qClosedState_reachable, by decide, by decide⟩

theorem goToFloor_early (s : Sys) (g : Int)
    (h : s.st.moving = true ∨ g = s.st.current) :
    goToFloor g s = { s with st := { s.st with selected := g } } := by
  simp only [goToFloor]
  rcases h with h | h <;> simp [h]

theorem goToFloor_travel_appends (s : Sys) (g : Int) (hm : s.st.moving = false)
    (hg : ¬ g = s.st.current) :
    ∃ w tk, tk.isTravel = true ∧ (goToFloor g s).tasks = s.tasks ++ [(w, tk)] := by
  simp only [goToFloor, closeDoors, clearDoorTimer, goToFloorResume]
  by_cases hdoor : s.st.doors = "closed"
  · have hns : ¬ (g - s.st.current).natAbs = 0 := by
      simpa [sub_eq_zero] using hg
    refine ⟨s.now + SPEED_PER_FLOOR,
      ETask.tick (if g > s.st.current then 1 else -1) (g - s.st.current).natAbs
        s.st.current, rfl, ?_⟩
    simp [hm, hg, hdoor, hns]
  · refine ⟨s.now + doorTime, ETask.closeSettle (some g), rfl, ?_⟩
    simp [hm, hg, hdoor]

theorem openDoors_st_frame (s : Sys) :
    (openDoors s).st.direction = s.st.direction ∧ (openDoors s).st.moving = s.st.moving ∧
    (openDoors s).st.current = s.st.current ∧ (openDoors s).st.doors ≠ "closed" := by
  simp only [openDoors, startDoorAutoCloseTimer]
  split_ifs with h <;> simp_all

theorem openDoors_tasks (s : Sys) :
    (openDoors s).tasks = s.tasks ∨
    (openDoors s).tasks = s.tasks ++ [(s.now + doorTime, ETask.openSettle)] := by
  simp only [openDoors, startDoorAutoCloseTimer]
  split_ifs with h <;> simp

theorem mem_eraseIdx_or_eq {α : Type} :
    ∀ (l : List α) (i : Nat) (ti x : α),
      l[i]? = some ti → x ∈ l → x ∈ l.eraseIdx i ∨ x = ti := by
  intro l
  induction l with
  | nil => intro i ti x h; simp at h
  | cons a l ih =>
      intro i ti x h hx
      cases i with
      | zero =>
          simp only [List.getElem?_cons_zero, Option.some_inj] at h
          rcases List.mem_cons.mp hx with rfl | hx'
          · right; exact h
          · left; simpa [List.eraseIdx] using hx'
      | succ i =>
          simp only [List.getElem?_cons_succ] at h
          rcases List.mem_cons.mp hx with rfl | hx'
          · left; simp [List.eraseIdx]
          · rcases ih i ti x h hx' with h1 | h1
            · left; simp [List.eraseIdx, h1]
            · right; exact h1

theorem closeDoors_none_shape (s : Sys) :
    (closeDoors none s).st.direction = s.st.direction ∧
    ((closeDoors none s).tasks = s.tasks ∨
      (closeDoors none s).tasks = s.tasks ++ [(s.now + doorTime, ETask.closeSettle none)]) := by
  simp only [closeDoors, clearDoorTimer]
  split_ifs <;> simp

theorem runTask_closeSettle_some (g : Int) (s : Sys) :
    (runTask (ETask.closeSettle (some g)) s).st.direction = 0 ∨
    ∃ w tk, tk.isTravel = true ∧
      (runTask (ETask.closeSettle (some g)) s).tasks = s.tasks ++ [(w, tk)] := by
  simp only [runTask, goToFloorResume]
  by_cases hz : (g - s.st.current).natAbs = 0
  · left
    rw [if_pos hz, (openDoors_st_frame _).1]
  · right
    rw [if_neg hz]
    exact ⟨s.now + SPEED_PER_FLOOR,
      ETask.tick s.st.direction (g - s.st.current).natAbs s.st.current, rfl, rfl⟩

theorem runTask_tick_shape (d : Int) (r : Nat) (temp : Int) (s : Sys) :
    (runTask (ETask.tick d r temp) s).st.direction = 0 ∨
    ((runTask (ETask.tick d r temp) s).st.direction = s.st.direction ∧
      (runTask (ETask.tick d r temp) s).tasks =
        s.tasks ++ [(s.now + SPEED_PER_FLOOR, ETask.tick d (r - 1) (temp + d))]) := by
  simp only [runTask]
  by_cases hr1 : r = 1
  · left
    rw [if_pos hr1, (openDoors_st_frame _).1]
  · right
    rw [if_neg hr1]
    exact ⟨rfl, rfl⟩

/-- C7 (amended): in every reachable state with no suspended travel
continuation pending (no `tick` and no awaited door-close), the
direction indicator is Idle — so `motion == Idle` implies
`direction == Idle` except while a travel sequence is suspended, in
particular during its door-closing phase, where the direction is
already commanded while `moving` is still false. -/
theorem c7_direction_idle_when_no_travel (s : Sys) (hr : Reachable s) :
    TravelFree s → s.st.direction = 0 := by
  induction hr with
  | init => intro _; decide
  | @step s1 s2 a hr hstep ih =>
      intro ht
      cases a with
      | press f t =>
          simp only [exec] at hstep
          split_ifs at hstep with hcond
          simp only [Option.some_inj] at hstep
          have hm : s1.st.moving = false := by
            simp only [Bool.and_eq_true, Bool.not_eq_true'] at hcond
            exact hcond.2
          subst hstep
          by_cases hg : f = s1.st.current
          · rw [goToFloor_early { s1 with now := t } f (Or.inr hg)] at ht ⊢
            exact ih ht
          · obtain ⟨w, tk, htk, htasks⟩ := goToFloor_travel_appends { s1 with now := t } f hm hg
            have h2 := ht (w, tk) (by rw [htasks]; simp)
            rw [htk] at h2
            exact absurd h2 (by simp)
      | pressOpen t =>
          simp only [exec] at hstep
          split_ifs at hstep with hcond
          simp only [Option.some_inj] at hstep
          subst hstep
          rw [(openDoors_st_frame _).1]
          rcases openDoors_tasks { s1 with now := t } with hta | hta
          · exact ih (fun p hp => ht p (by rw [hta]; exact hp))
          · exact ih (fun p hp => ht p (by rw [hta]; exact List.mem_append_left _ hp))
      | pressClose t =>
          simp only [exec] at hstep
          split_ifs at hstep with hcond
          simp only [Option.some_inj] at hstep
          subst hstep
          rw [(closeDoors_none_shape _).1]
          rcases (closeDoors_none_shape ({ s1 with now := t } : Sys)).2 with hta | hta
          · exact ih (fun p hp => ht p (by rw [hta]; exact hp))
          · exact ih (fun p hp => ht p (by rw [hta]; exact List.mem_append_left _ hp))
      | timerFire =>
          simp only [exec] at hstep
          cases hT : s1.doorTimer with
          | none => simp [hT] at hstep
          | some T =>
              simp only [hT] at hstep
              split_ifs at hstep with hmin
              simp only [Option.some_inj] at hstep
              subst hstep
              simp only [doorTimerCallback] at ht ⊢
              by_cases hmov : s1.st.moving = true
              · rw [if_pos hmov] at ht ⊢
                exact ih ht
              · rw [if_neg hmov] at ht ⊢
                rw [(closeDoors_none_shape _).1]
                rcases (closeDoors_none_shape
                    ({ s1 with now := T, doorTimer := none } : Sys)).2 with hta | hta
                · exact ih (fun p hp => ht p (by rw [hta]; exact hp))
                · exact ih (fun p hp => ht p (by rw [hta]; exact List.mem_append_left _ hp))
      | fire i =>
          simp only [exec] at hstep
          cases hti : s1.tasks[i]? with
          | none => simp [hti] at hstep
          | some p =>
              obtain ⟨w, tk⟩ := p
              simp only [hti] at hstep
              split_ifs at hstep with hmin
              simp only [Option.some_inj] at hstep
              subst hstep
              cases tk with
              | closeSettle k =>
                  cases k with
                  | none =>
                      simp only [runTask] at ht ⊢
                      refine ih (fun p hp => ?_)
                      rcases mem_eraseIdx_or_eq s1.tasks i (w, ETask.closeSettle none) p hti hp
                        with h1 | h1
                      · exact ht p h1
                      · rw [h1]; rfl
                  | some g =>
                      rcases runTask_closeSettle_some g
                          ({ s1 with now := w, tasks := s1.tasks.eraseIdx i } : Sys)
                        with h1 | ⟨w2, tk2, htk2, hta2⟩
                      · exact h1
                      · have h2 := ht (w2, tk2) (by rw [hta2]; simp)
                        rw [htk2] at h2
                        exact absurd h2 (by simp)
              | openSettle =>
                  simp only [runTask, startDoorAutoCloseTimer] at ht ⊢
                  refine ih (fun p hp => ?_)
                  rcases mem_eraseIdx_or_eq s1.tasks i (w, ETask.openSettle) p hti hp
                    with h1 | h1
                  · exact ht p h1
                  · rw [h1]; rfl
              | tick d r temp =>
                  rcases runTask_tick_shape d r temp
                      ({ s1 with now := w, tasks := s1.tasks.eraseIdx i } : Sys)
                    with h1 | ⟨hdir, hta2⟩
                  · exact h1
                  · have h2 := ht (({ s1 with now := w, tasks := s1.tasks.eraseIdx i } : Sys).now
                        + SPEED_PER_FLOOR, ETask.tick d (r - 1) (temp + d)) (by rw [hta2]; simp)
                    exact absurd h2 (by simp [ETask.isTravel])

theorem openDoors_when_open (s : Sys) (h : s.st.doors = "open") :
    openDoors s = { s with doorTimer := some (s.now + doorAutoCloseMs) } := by
  simp only [openDoors, startDoorAutoCloseTimer]
  rw [if_pos h]

theorem openDoors_when_not_open (s : Sys) (h : ¬ s.st.doors = "open") :
    openDoors s = { s with
      st := { s.st with doors := "open" },
      tasks := s.tasks ++ [(s.now + doorTime, ETask.openSettle)] } := by
  simp only [openDoors]
  rw [if_neg h]

theorem closeDoors_when_closed_none (s : Sys) (h : s.st.doors = "closed") :
    closeDoors none s = { s with doorTimer := none } := by
  simp only [closeDoors, clearDoorTimer]
  rw [if_pos h]

theorem closeDoors_when_not_closed (k : Option Int) (s : Sys) (h : ¬ s.st.doors = "closed") :
    closeDoors k s = { s with
      st := { s.st with doors := "closed" },
      doorTimer := none,
      tasks := s.tasks ++ [(s.now + doorTime, ETask.closeSettle k)] } := by
  simp only [closeDoors, clearDoorTimer]
  rw [if_neg h]

theorem goToFloorResume_pos (g : Int) (s : Sys) (h : ¬ (g - s.st.current).natAbs = 0) :
    goToFloorResume g s = { s with
      st := { s.st with moving := true },
      tasks := s.tasks ++ [(s.now + SPEED_PER_FLOOR,
        ETask.tick s.st.direction (g - s.st.current).natAbs s.st.current)] } := by
  simp only [goToFloorResume]
  rw [if_neg h]

theorem goToFloorResume_zero (g : Int) (s : Sys) (h : (g - s.st.current).natAbs = 0) :
    goToFloorResume g s = openDoors { s with st := { s.st with direction := 0 } } := by
  simp only [goToFloorResume]
  rw [if_pos h]

theorem runTask_tick_last (d temp : Int) (s : Sys) :
    runTask (ETask.tick d 1 temp) s =
      openDoors { s with st :=
        { s.st with
          current := temp + d,
          moving := false,
          direction := 0,
          selected := temp + d } } := by
  simp [runTask]

theorem runTask_tick_more (d : Int) (r : Nat) (temp : Int) (s : Sys) (h : ¬ r = 1) :
    runTask (ETask.tick d r temp) s =
      { s with
        st := { s.st with current := temp + d },
        tasks := s.tasks ++ [(s.now + SPEED_PER_FLOOR, ETask.tick d (r - 1) (temp + d))] } := by
  simp only [runTask]
  rw [if_neg h]

theorem singleton_of_le_one {α : Type} (l : List α) (i : Nat) (x : α)
    (h1 : l.length ≤ 1) (h2 : l[i]? = some x) : l = [x] ∧ i = 0 := by
  cases l with
  | nil => simp at h2
  | cons a as =>
      cases as with
      | nil =>
          cases i with
          | zero =>
              simp only [List.getElem?_cons_zero, Option.some_inj] at h2
              exact ⟨by rw [h2], rfl⟩
          | succ j => simp at h2
      | cons b bs => simp at h1

theorem invQ_travelCfg (c d : Int) (r : Nat) (sel : Int) (n : Nat) :
    InvQ (travelCfg c d r sel n) := by
  refine ⟨by simp [travelCfg], fun _ _ _ _ => rfl, ?_, ?_, fun _ => rfl, ?_⟩
  · intro T hT; simp [travelCfg] at hT
  · intro p hp hk
    simp only [travelCfg, List.mem_singleton] at hp
    rw [hp] at hk
    simp at hk
  · intro _
    exact ⟨(n + SPEED_PER_FLOOR, ETask.tick d r c), by simp [travelCfg], d, r, c, rfl⟩

theorem invQ_closingCfg (c d g : Int) (n : Nat) : InvQ (closingCfg c d g n) := by
  refine ⟨by simp [closingCfg], fun _ _ _ _ => rfl, ?_, ?_, ?_, ?_⟩
  · intro T hT; simp [closingCfg] at hT
  · intro p hp hk
    simp only [closingCfg, List.mem_singleton] at hp
    rw [hp] at hk
    simp at hk
  · intro hmv; simp [closingCfg] at hmv
  · intro hmv; simp [closingCfg] at hmv

theorem invQ_closing_none (s : Sys) (hm : s.st.moving = false) (hq : s.tasks = [])
    (hd : ¬ s.st.doors = "closed") : InvQ (closeDoors none s) := by
  rw [closeDoors_when_not_closed none s hd]
  refine ⟨by simp [hq], fun _ _ _ _ => rfl, ?_, ?_, ?_, ?_⟩
  · intro T hT; simp at hT
  · intro p hp hk
    simp only [hq, List.nil_append, List.mem_singleton] at hp
    rw [hp] at hk
    simp at hk
  · intro hmv; simp [hm] at hmv
  · intro hmv; simp [hm] at hmv

theorem invQ_opening (s : Sys) (hm : s.st.moving = false) (hq : s.tasks = [])
    (hT : s.doorTimer = none) (hd : ¬ s.st.doors = "open") : InvQ (openDoors s) := by
  rw [openDoors_when_not_open s hd]
  refine ⟨by simp [hq], ?_, ?_, fun _ _ _ => rfl, ?_, ?_⟩
  · intro p hp k hk
    simp only [hq, List.nil_append, List.mem_singleton] at hp
    rw [hp] at hk
    simp at hk
  · intro T h; simp [hT] at h
  · intro hmv; simp [hm] at hmv
  · intro hmv; simp [hm] at hmv

theorem invQ_of_reachableQ (s : Sys) (hr : ReachableQ s) : InvQ s := by
  induction hr with
  | init =>
      have hinit : initSys =
          { st := { current := 0, direction := 0, moving := false,
                    doors := "open", selected := 0 },
            doorTimer := none, tasks := [(700, ETask.openSettle)], now := 0 } := by decide
      rw [hinit]
      refine ⟨by simp, ?_, ?_, ?_, ?_, ?_⟩
      · intro p hp k hk
        simp only [List.mem_singleton] at hp
        rw [hp] at hk
        simp at hk
      · intro T hT; simp at hT
      · intro p hp hk; rfl
      · intro hmv; simp at hmv
      · intro hmv; simp at hmv
  | @step s1 s2 a hr hu hstep ih =>
      obtain ⟨i1, i2, i3, i4, i5, i6⟩ := ih
      cases a with
      | press f t =>
          have hq : s1.tasks = [] := hu rfl
          simp only [exec] at hstep
          split_ifs at hstep with hcond
          simp only [Option.some_inj] at hstep
          have hm : s1.st.moving = false := by
            simp only [Bool.and_eq_true, Bool.not_eq_true'] at hcond
            exact hcond.2
          subst hstep
          by_cases hg : f = s1.st.current
          · rw [goToFloor_early { s1 with now := t } f (Or.inr hg)]
            refine ⟨by simp [hq], ?_, ?_, ?_, ?_, ?_⟩
            · intro p hp; rw [hq] at hp; simp at hp
            · intro T hT
              exact ⟨(i3 T hT).1, by simp [hq]⟩
            · intro p hp; rw [hq] at hp; simp at hp
            · intro hmv; simp [hm] at hmv
            · intro hmv; simp [hm] at hmv
          · by_cases hdoor : s1.st.doors = "closed"
            · rw [goToFloor_closed_starts_travel { s1 with now := t } f hq hm hdoor hg]
              exact invQ_travelCfg _ _ _ _ _
            · rw [goToFloor_open_closes_doors { s1 with now := t } f hq hm hdoor hg]
              exact invQ_closingCfg _ _ _ _
      | pressOpen t =>
          have hq : s1.tasks = [] := hu rfl
          simp only [exec] at hstep
          split_ifs at hstep with hcond
          simp only [Option.some_inj] at hstep
          have hcond' : s1.st.moving = false ∧ ¬ s1.st.doors = "open" := by
            simp only [Bool.and_eq_true, Bool.not_eq_true', Bool.not_eq_true,
              beq_eq_false_iff_ne, ne_eq] at hcond
            exact ⟨hcond.1.2, hcond.2⟩
          subst hstep
          have hT : s1.doorTimer = none := by
            cases h : s1.doorTimer with
            | none => rfl
            | some T => exact absurd (i3 T h).1 hcond'.2
          exact invQ_opening { s1 with now := t } hcond'.1 hq hT hcond'.2
      | pressClose t =>
          have hq : s1.tasks = [] := hu rfl
          simp only [exec] at hstep
          split_ifs at hstep with hcond
          simp only [Option.some_inj] at hstep
          have hcond' : s1.st.moving = false ∧ ¬ s1.st.doors = "closed" := by
            simp only [Bool.and_eq_true, Bool.not_eq_true', Bool.not_eq_true,
              beq_eq_false_iff_ne, ne_eq] at hcond
            exact ⟨hcond.1.2, hcond.2⟩
          subst hstep
          exact invQ_closing_none { s1 with now := t } hcond'.1 hq hcond'.2
      | timerFire =>
          simp only [exec] at hstep
          cases hT : s1.doorTimer with
          | none => simp [hT] at hstep
          | some T =>
              simp only [hT] at hstep
              split_ifs at hstep with hmin
              simp only [Option.some_inj] at hstep
              subst hstep
              obtain ⟨hdo, hq⟩ := i3 T hT
              have hm : s1.st.moving = false := by
                cases hmov : s1.st.moving with
                | false => rfl
                | true => exact absurd (i5 hmov) (by simp [hdo])
              have hcb : doorTimerCallback { s1 with now := T, doorTimer := none } =
                  closeDoors none { s1 with now := T, doorTimer := none } := by
                simp [doorTimerCallback, hm]
              rw [hcb]
              exact invQ_closing_none _ hm hq (by simp [hdo])
      | fire i =>
          simp only [exec] at hstep
          cases hti : s1.tasks[i]? with
          | none => simp [hti] at hstep
          | some p =>
              obtain ⟨w, tk⟩ := p
              simp only [hti] at hstep
              split_ifs at hstep with hmin
              simp only [Option.some_inj] at hstep
              subst hstep
              obtain ⟨htasks, hi0⟩ := singleton_of_le_one s1.tasks i (w, tk) i1 hti
              subst hi0
              have herase : s1.tasks.eraseIdx 0 = [] := by rw [htasks]; rfl
              have hTnone : s1.doorTimer = none := by
                cases h : s1.doorTimer with
                | none => rfl
                | some T =>
                    have := (i3 T h).2
                    rw [htasks] at this
                    exact absurd this (by simp)
              cases tk with
              | closeSettle k =>
                  have hm : s1.st.moving = false := by
                    cases hmov : s1.st.moving with
                    | false => rfl
                    | true =>
                        obtain ⟨p, hp, d, r, temp, hk⟩ := i6 hmov
                        rw [htasks] at hp
                        simp only [List.mem_singleton] at hp
                        rw [hp] at hk
                        simp at hk
                  have hdc : s1.st.doors = "closed" :=
                    i2 (w, ETask.closeSettle k) (by rw [htasks]; simp) k rfl
                  cases k with
                  | none =>
                      simp only [runTask]
                      refine ⟨by simp [herase], ?_, ?_, ?_, ?_, ?_⟩
                      · intro p hp; rw [herase] at hp; simp at hp
                      · intro T hT; simp [hTnone] at hT
                      · intro p hp; rw [herase] at hp; simp at hp
                      · intro hmv; simp [hm] at hmv
                      · intro hmv; simp [hm] at hmv
                  | some g =>
                      simp only [runTask]
                      by_cases hz :
                          (g - ({ s1 with now := w, tasks := s1.tasks.eraseIdx 0 } :
                            Sys).st.current).natAbs = 0
                      · rw [goToFloorResume_zero g _ hz]
                        refine invQ_opening _ hm (by simp [herase]) (by simp [hTnone])
                          (by simp [hdc])
                      · rw [goToFloorResume_pos g _ hz]
                        refine ⟨by simp [herase], fun _ _ _ _ => hdc, ?_, ?_,
                          fun _ => hdc, ?_⟩
                        · intro T hT; simp [hTnone] at hT
                        · intro p hp hk
                          simp only [herase, List.nil_append, List.mem_singleton] at hp
                          rw [hp] at hk
                          simp at hk
                        · intro _
                          refine ⟨(w + SPEED_PER_FLOOR,
                            ETask.tick s1.st.direction
                              (g - s1.st.current).natAbs s1.st.current),
                            by simp [herase], _, _, _, rfl⟩
              | openSettle =>
                  have hm : s1.st.moving = false := by
                    cases hmov : s1.st.moving with
                    | false => rfl
                    | true =>
                        obtain ⟨p, hp, d, r, temp, hk⟩ := i6 hmov
                        rw [htasks] at hp
                        simp only [List.mem_singleton] at hp
                        rw [hp] at hk
                        simp at hk
                  have hdo : s1.st.doors = "open" :=
                    i4 (w, ETask.openSettle) (by rw [htasks]; simp) rfl
                  simp only [runTask, startDoorAutoCloseTimer]
                  refine ⟨by simp [herase], ?_, ?_, ?_, ?_, ?_⟩
                  · intro p hp; rw [herase] at hp; simp at hp
                  · intro T hT
                    exact ⟨hdo, by simp [herase]⟩
                  · intro p hp; rw [herase] at hp; simp at hp
                  · intro hmv; simp [hm] at hmv
                  · intro hmv; simp [hm] at hmv
              | tick d r temp =>
                  by_cases hr1 : r = 1
                  · subst hr1
                    rw [runTask_tick_last d temp _]
                    by_cases hdo :
                        (({ s1 with now := w, tasks := s1.tasks.eraseIdx 0 } : Sys).st.doors
                          = "open")
                    · rw [openDoors_when_open _ (by simpa using hdo)]
                      refine ⟨by simp [herase], ?_, ?_, ?_, ?_, ?_⟩
                      · intro p hp; rw [herase] at hp; simp at hp
                      · intro T hT
                        exact ⟨by simpa using hdo, by simp [herase]⟩
                      · intro p hp; rw [herase] at hp; simp at hp
                      · intro hmv; simp at hmv
                      · intro hmv; simp at hmv
                    · refine invQ_opening _ (by simp) (by simp [herase])
                        (by simp [hTnone]) (by simpa using hdo)
                  · rw [runTask_tick_more d r temp _ hr1]
                    refine ⟨by simp [herase], ?_, ?_, ?_, ?_, ?_⟩
                    · intro p hp k hk
                      simp only [herase, List.nil_append, List.mem_singleton] at hp
                      rw [hp] at hk
                      simp at hk
                    · intro T hT; simp [hTnone] at hT
                    · intro p hp hk
                      simp only [herase, List.nil_append, List.mem_singleton] at hp
                      rw [hp] at hk
                      simp at hk
                    · intro hmv
                      exact i5 (by simpa using hmv)
                    · intro hmv
                      exact ⟨(w + SPEED_PER_FLOOR, ETask.tick d (r - 1) (temp + d)),
                        by simp [herase], _, _, _, rfl⟩

theorem travelingState_reachableQ : ReachableQ travelingState := by
  have h0 : ReachableQ initSys := ReachableQ.init
  have h1 : ReachableQ dwellState :=
    ReachableQ.step h0 (by simp [Act.isUser])
      (show exec initSys (Act.fire 0) = some dwellState by decide)
  have h2 : ReachableQ
      { st :=
          { current := 0,
            direction := 0,
            moving := false,
            doors := "closed",
            selected := 0 },
        doorTimer := none,
        tasks := [(6400, ETask.closeSettle none)],
        now := 5700 } :=
    ReachableQ.step h1 (by simp [Act.isUser])
      (show exec dwellState Act.timerFire = some _ by decide)
  have h3 : ReachableQ qClosedState :=
    ReachableQ.step h2 (by simp [Act.isUser])
      (show exec _ (Act.fire 0) = some qClosedState by decide)
  exact ReachableQ.step h3 (fun _ => rfl)
    (show exec qClosedState (Act.press 3 7000) = some travelingState by decide)

/-- C2 (amended): under quiescent usage — every button press delivered
while no sleep continuation is pending, the discipline the specification
assumes — `motion == Traveling` implies `doorState == Closed` in every
reachable state.  Under arbitrary interleaving the invariant is false:
pressing Open during a travel's door-closing suspension yields a
traveling state with the doors open (see the counterexample). -/
theorem c2_traveling_doors_closed (s : Sys) (hr : ReachableQ s)
    (hm : s.st.moving = true) : s.st.doors = "closed" :=
  (invQ_of_reachableQ s hr).2.2.2.2.1 hm

theorem c2_traveling_doors_closed_witness : travelingState.st.doors = "closed" :=
  c2_traveling_doors_closed travelingState travelingState_reachableQ (by decide)

/-- C2 counterexample: a reachable state (floor 3 pressed at 1000 while
the doors were open; Open pressed at 1100 during the close settle; the
suspended travel resumed at 1700) in which the car is moving with the
doors open. -/
theorem c2_counterexample :
    Reachable movingDoorsOpenState ∧ movingDoorsOpenState.st.moving = true ∧
    movingDoorsOpenState.st.doors = "open" :=
  ⟨reachable_execList Reachable.init
      (show execList initSys
          [Act.fire 0, Act.press 3 1000, Act.pressOpen 1100, Act.fire 0] =
        some movingDoorsOpenState by decide),
    by decide, by decide⟩

/-- C6 (amended): a `requestFloor` issued while `motion == Traveling`
cannot start a second travel sequence — the task queue and the number of
in-flight travels are unchanged; but a `requestFloor` issued during
another travel's door-closing suspension, while `motion` is still Idle,
does start a second concurrent travel sequence (see the
counterexample). -/
theorem c6_no_second_travel_while_moving (s : Sys) (f : Int) (hm : s.st.moving = true) :
    (goToFloor f s).tasks = s.tasks ∧ inFlight (goToFloor f s) = inFlight s := by
  rw [goToFloor_early s f (Or.inl hm)]
  exact ⟨rfl, rfl⟩

theorem c6_no_second_travel_while_moving_witness :
    (goToFloor 5 travelingState).tasks = travelingState.tasks ∧
    inFlight (goToFloor 5 travelingState) = inFlight travelingState :=
  c6_no_second_travel_while_moving travelingState 5 (by decide)

/-- C6 counterexample: a reachable state with two travel sequences in
flight at once — floor 5 pressed at 1100, during the door-closing
suspension of the travel toward floor 3 started at 1000, when `moving`
was still false. -/
theorem c6_counterexample :
    Reachable twoTravelState ∧ inFlight twoTravelState = 2 :=
  ⟨reachable_execList Reachable.init
      (show execList initSys [Act.fire 0, Act.press 3 1000, Act.press 5 1100] =
        some twoTravelState by decide),
    by decide⟩

theorem c7_direction_idle_witness : qClosedState.st.direction = 0 :=
  c7_direction_idle_when_no_travel qClosedState qClosedState_reachable
    (by intro p hp; simp [qClosedState] at hp)

/-- C7 counterexample: a reachable state (floor 3 pressed at 1000 while
the doors were open, travel suspended in its door-closing settle) in
which `motion == Idle` but `direction == Up`. -/
theorem c7_counterexample :
    Reachable closingPhaseState ∧ closingPhaseState.st.moving = false ∧
    ¬ closingPhaseState.st.direction = 0 :=
  ⟨reachable_execList Reachable.init
      (show execList initSys [Act.fire 0, Act.press 3 1000] = some closingPhaseState
        by decide),
    by decide, by decide⟩
